import Mathlib

/-!
Verification of the token lifecycle and credential-store component of the
`instagram_auth` repository (files `token_manager.py` and `auth.py`),
shallowly embedded in Lean.

Conventions of the embedding:
* Timestamps (`datetime.now()`, `CURRENT_TIMESTAMP()`) are integers; each
  operation receives the clock value through an environment record.
* The Fernet vault (an external library) is modelled as authenticated
  symmetric encryption: a ciphertext carries a MAC computed from the key
  and the payload, and decryption fails (returns `none`, the image of a
  raised `InvalidToken`) whenever the MAC does not match.
* The Snowflake table `META_TOKENS` is a list of rows keyed by `USER_ID`;
  `MERGE` updates every matching row or appends one, `SELECT ... WHERE
  USER_ID = %s` with `fetchone` returns the first matching row.
* Fallible external effects (connecting, executing a statement, remote HTTP
  calls) are modelled by boolean/sum fields of the environment; a Python
  exception caught by a `try/except` block is the corresponding error
  branch of the Lean function.
* `get_user_token` additionally returns the number of `decrypt_token`
  invocations it performed, so that "returns without attempting
  decryption" is a statement about the function itself.
-/

/-- A Fernet ciphertext: the encrypted payload together with the
authentication tag.  (The payload is kept in clear inside the model; the
claims under verification concern round-tripping and tamper detection,
not computational hiding.) -/
structure Ciphertext where
  payload : String
  mac : Nat
deriving DecidableEq, Repr

/-- The authentication tag Fernet attaches, as a function of key and
payload: any computable function that depends on both suffices for the
model. -/
def macOf (key : Nat) (s : String) : Nat :=
  s.data.foldl (fun a c => a * 257 + c.toNat + 1) (key + 1)

/-- `TokenManager.__init__` stores the Fernet key; construction fails fast
when the key is absent, so a constructed manager always holds a key. -/
structure TokenManager where
  key : Nat
deriving DecidableEq, Repr

/-- `TokenManager.encrypt_token`: `self.fernet.encrypt(token.encode()).decode()`. -/
def TokenManager.encrypt_token (tm : TokenManager) (token : String) : Ciphertext :=
  ⟨token, macOf tm.key token⟩

/-- `TokenManager.decrypt_token`: `self.fernet.decrypt(encrypted_token.encode()).decode()`.
`none` models the `InvalidToken` exception Fernet raises on a corrupt,
truncated or foreign-key ciphertext. -/
def TokenManager.decrypt_token (tm : TokenManager) (c : Ciphertext) : Option String :=
  if macOf tm.key c.payload = c.mac then some c.payload else none

/-- The nested linked-account descriptor
(`instagram_business_account{id,name,username}`). -/
structure IgAccount where
  id : String
  name : String
  username : String
deriving DecidableEq, Repr

/-- A page dict as it travels through `auth.py` (plaintext page token). -/
structure Page where
  id : String
  name : String
  category : String
  access_token : Option String
  instagram_business_account : Option IgAccount
deriving DecidableEq, Repr

/-- A page dict after `store_user_token` encrypted its `access_token`
field; all other fields are copied verbatim (`page.copy()`). -/
structure EncPage where
  id : String
  name : String
  category : String
  access_token : Option Ciphertext
  instagram_business_account : Option IgAccount
deriving DecidableEq, Repr

/-- Encryption of one page inside `store_user_token`:
`page_copy['access_token'] = self.encrypt_token(...)` when the key is
present, all other fields untouched. -/
def encryptPage (tm : TokenManager) (p : Page) : EncPage :=
  ⟨p.id, p.name, p.category, p.access_token.map tm.encrypt_token,
    p.instagram_business_account⟩

/-- One row of the `META_TOKENS` table (minus the `USER_ID` key, which is
the association-list key).  `token_expiry` and `last_refreshed` are
nullable columns; the `MERGE` insert branch names neither
`LAST_REFRESHED` nor `NEEDS_REAUTH`, leaving them at the table defaults
(`NULL`, read back as falsy). -/
structure TokenRecord where
  meta_user_id : String
  access_token : Ciphertext
  token_expiry : Option Int
  pages : Option (List EncPage)
  needs_reauth : Bool
  last_refreshed : Option Int
deriving DecidableEq, Repr

/-- The `META_TOKENS` table: rows of key and record. -/
abbrev Store := List (String × TokenRecord)

/-- `SELECT ... WHERE USER_ID = %s` followed by `fetchone()`: the first
row whose key matches. -/
def lookupUser (s : Store) (uid : String) : Option TokenRecord :=
  (List.find? (fun p => p.1 = uid) s).map Prod.snd

/-- The `MERGE INTO META_TOKENS` statement: when some row matches on
`USER_ID`, update every matching row with `upd`; otherwise insert a fresh
row `ins`. -/
def mergeStore (s : Store) (uid : String) (upd : TokenRecord → TokenRecord)
    (ins : TokenRecord) : Store :=
  if s.any (fun p => p.1 = uid) then
    s.map (fun p => if p.1 = uid then (p.1, upd p.2) else p)
  else
    s ++ [(uid, ins)]

/-- The `if pages:` guard of `store_user_token` — Python truthiness:
both `None` and the empty list leave `encrypted_pages = None`; otherwise
every page is encrypted. -/
def encryptPagesOpt (tm : TokenManager) : Option (List Page) → Option (List EncPage)
  | none => none
  | some [] => none
  | some ps => some (ps.map (encryptPage tm))

/-- Environment of one `store_user_token` call: whether the Snowflake
connection and the statement execution succeed, and the wall clock. -/
structure StoreEnv where
  connectOk : Bool
  executeOk : Bool
  now : Int
deriving DecidableEq, Repr

/-- `TokenManager.store_user_token`.  Returns the Python return value and
the table after the call.  Any failure is caught by the surrounding
`try/except`, which reports the error via `st.error` and returns
`False` with the table untouched. -/
def TokenManager.store_user_token (tm : TokenManager) (env : StoreEnv) (s : Store)
    (user_id meta_user_id : String) (access_token : String) (expires_in : Int)
    (pages : Option (List Page)) : Bool × Store :=
  if env.connectOk then
    let encrypted_token := tm.encrypt_token access_token
    let expiry_date := env.now + expires_in
    let encrypted_pages : Option (List EncPage) := encryptPagesOpt tm pages
    if env.executeOk then
      (true,
        mergeStore s user_id
          (fun _ =>
            { meta_user_id := meta_user_id, access_token := encrypted_token,
              token_expiry := some expiry_date, pages := encrypted_pages,
              needs_reauth := false, last_refreshed := some env.now })
          { meta_user_id := meta_user_id, access_token := encrypted_token,
            token_expiry := some expiry_date, pages := encrypted_pages,
            needs_reauth := false, last_refreshed := none })
    else (false, s)
  else (false, s)

/-- `TokenManager._mark_token_for_reauth`: `UPDATE META_TOKENS SET
NEEDS_REAUTH = TRUE WHERE USER_ID = %s`, with every failure swallowed by
its own `try/except` (the table is then unchanged). -/
def TokenManager.mark_token_for_reauth (connectOk : Bool) (s : Store)
    (uid : String) : Store :=
  if connectOk then
    s.map (fun p => if p.1 = uid then (p.1, { p.2 with needs_reauth := true }) else p)
  else s

/-- The expiry test of `get_user_token`:
`if token_expiry and token_expiry < datetime.now():` — a `NULL` column is
falsy, so the comparison is only reached for a non-null expiry. -/
def isExpired (e : Option Int) (now : Int) : Bool :=
  match e with
  | none => false
  | some t => decide (t < now)

/-- What `get_user_token` hands back to its caller: `None`, the
`{'needs_reauth': True}` dict, or the fully populated dict. -/
inductive FetchResult where
  | notFound
  | needsReauth
  | token (user_id meta_user_id access_token : String)
      (token_expiry : Option Int) (pages : Option (List Page))
deriving DecidableEq, Repr

/-- Environment of one `get_user_token` call: whether its own connection
succeeds, whether the connection inside `_mark_token_for_reauth`
succeeds, and the wall clock. -/
structure FetchEnv where
  connectOk : Bool
  markConnectOk : Bool
  now : Int
deriving DecidableEq, Repr

/-- Decrypting one page dict inside `get_user_token`; also counts the
`decrypt_token` invocations.  A failed decryption raises, aborting the
whole read. -/
def decryptPage (tm : TokenManager) (p : EncPage) : Option Page × Nat :=
  match p.access_token with
  | none => (some ⟨p.id, p.name, p.category, none, p.instagram_business_account⟩, 0)
  | some c =>
      match tm.decrypt_token c with
      | none => (none, 1)
      | some t => (some ⟨p.id, p.name, p.category, some t, p.instagram_business_account⟩, 1)

/-- The `for page in encrypted_pages` loop: decrypt pages left to right,
aborting at the first failure. -/
def decryptPagesList (tm : TokenManager) : List EncPage → Option (List Page) × Nat
  | [] => (some [], 0)
  | p :: ps =>
      match decryptPage tm p with
      | (none, n) => (none, n)
      | (some pg, n) =>
          match decryptPagesList tm ps with
          | (none, m) => (none, n + m)
          | (some pgs, m) => (some (pg :: pgs), n + m)

/-- The pages step of `get_user_token`: `pages = None; if encrypted_pages:
...` — `NULL` and the empty array are both falsy and leave `pages =
None`.  The outer `none` is a raised decryption error. -/
def fetchPages (tm : TokenManager) :
    Option (List EncPage) → Option (Option (List Page)) × Nat
  | none => (some none, 0)
  | some [] => (some none, 0)
  | some ps =>
      match decryptPagesList tm ps with
      | (none, n) => (none, n)
      | (some l, n) => (some (some l), n)

/-- `TokenManager.get_user_token`.  Returns the result handed to the
caller, the table after the call (the lazy-expiry path may set
`NEEDS_REAUTH`), and the number of `decrypt_token` invocations.  Every
exception is caught by the surrounding `try/except`, which reports via
`st.error` and returns `None`. -/
def TokenManager.get_user_token (tm : TokenManager) (env : FetchEnv) (s : Store)
    (user_id : String) : FetchResult × Store × Nat :=
  if env.connectOk then
    match lookupUser s user_id with
    | none => (.notFound, s, 0)
    | some r =>
      if r.needs_reauth then (.needsReauth, s, 0)
      else
        if isExpired r.token_expiry env.now then
          (.needsReauth, TokenManager.mark_token_for_reauth env.markConnectOk s user_id, 0)
        else
          match tm.decrypt_token r.access_token with
          | none => (.notFound, s, 1)
          | some token =>
              match fetchPages tm r.pages with
              | (none, n) => (.notFound, s, 1 + n)
              | (some pages, n) =>
                  (.token user_id r.meta_user_id token r.token_expiry pages, s, 1 + n)
  else (.notFound, s, 0)

/-- Outcome of one `requests.get` call: the request itself may raise (a
network error), or yield a response with a status code and a body —
`none` for a body on which `.json()` raises. -/
inductive Remote (α : Type) where
  | netErr
  | resp (status : Nat) (body : Option α)
deriving DecidableEq, Repr

/-- Body of the two `oauth/access_token` endpoints; a missing key is
`none` (subscripting it raises `KeyError`). -/
structure TokenJson where
  access_token : Option String
  expires_in : Option Int
deriving DecidableEq, Repr

/-- Body of the `me?fields=id,name,email` endpoint. -/
structure UserInfo where
  id : Option String
  name : Option String
  email : Option String
deriving DecidableEq, Repr

/-- Body of the `me/accounts` endpoint; `data` missing makes
`.get('data', [])` fall back to the empty list. -/
structure PagesJson where
  data : Option (List Page)
deriving DecidableEq, Repr

/-- `requests.Response.raise_for_status()` raises for 4xx/5xx codes. -/
def raiseForStatus (status : Nat) : Bool := decide (status < 400)

/-- `MetaAuth.exchange_code_for_token`: GET, `raise_for_status`, `.json()`.
An `Except.error` is a raised exception.  The authorization code is sent
to the remote authority; the response is given by the environment. -/
def exchange_code_for_token (r : Remote TokenJson) (code : String) :
    Except Unit TokenJson :=
  match r, code with
  | .netErr, _ => .error ()
  | .resp status body, _ =>
      if raiseForStatus status then
        match body with
        | none => .error ()
        | some j => .ok j
      else .error ()

/-- `MetaAuth.get_long_lived_token`: same shape as the code exchange. -/
def get_long_lived_token (r : Remote TokenJson) (access_token : String) :
    Except Unit TokenJson :=
  match r, access_token with
  | .netErr, _ => .error ()
  | .resp status body, _ =>
      if raiseForStatus status then
        match body with
        | none => .error ()
        | some j => .ok j
      else .error ()

/-- `MetaAuth.get_user_info`: GET `me`, `raise_for_status`, `.json()`. -/
def get_user_info (r : Remote UserInfo) (access_token : String) :
    Except Unit UserInfo :=
  match r, access_token with
  | .netErr, _ => .error ()
  | .resp status body, _ =>
      if raiseForStatus status then
        match body with
        | none => .error ()
        | some j => .ok j
      else .error ()

/-- `MetaAuth.get_pages`: a non-200 status does NOT raise — it returns the
empty list; on 200 the body is parsed (`.json()` may raise) and the
`data` key defaults to `[]`. -/
def get_pages (r : Remote PagesJson) (access_token : String) :
    Except Unit (List Page) :=
  match r, access_token with
  | .netErr, _ => .error ()
  | .resp status body, _ =>
      if status = 200 then
        match body with
        | none => .error ()
        | some j => .ok (j.data.getD [])
      else .ok []

/-- The environment of one `complete_oauth_flow` call: the four remote
responses and the store-call environment. -/
structure FlowEnv where
  exchangeR : Remote TokenJson
  longLivedR : Remote TokenJson
  userInfoR : Remote UserInfo
  pagesR : Remote PagesJson
  storeEnv : StoreEnv
deriving DecidableEq, Repr

/-- The dict `complete_oauth_flow` returns on success. -/
structure FlowResult where
  user_info : UserInfo
  pages : List Page
deriving DecidableEq, Repr

/-- One recorded invocation of `store_user_token` with its arguments. -/
structure UpsertCall where
  user_id : String
  meta_user_id : String
  access_token : String
  expires_in : Int
  pages : Option (List Page)
deriving DecidableEq, Repr

/-- `MetaAuth.complete_oauth_flow`.  Returns the Python return value, the
table after the call, and the list of `store_user_token` invocations made
(for auditing persistence).  Any exception in the staged calls is caught
by the outer `try/except`, which reports via `st.error` and returns
`None`. -/
def complete_oauth_flow (tm : TokenManager) (env : FlowEnv) (s : Store)
    (user_id code : String) : Option FlowResult × Store × List UpsertCall :=
  match exchange_code_for_token env.exchangeR code with
  | .error _ => (none, s, [])
  | .ok token_data =>
    match token_data.access_token with
    | none => (none, s, [])        -- KeyError on token_data['access_token']
    | some access_token =>
      match get_long_lived_token env.longLivedR access_token with
      | .error _ => (none, s, [])
      | .ok long_lived_data =>
        match long_lived_data.access_token with
        | none => (none, s, [])    -- KeyError on ['access_token']
        | some long_lived_token =>
          match long_lived_data.expires_in with
          | none => (none, s, [])  -- KeyError on ['expires_in']
          | some expires_in =>
            match get_user_info env.userInfoR long_lived_token with
            | .error _ => (none, s, [])
            | .ok user_info =>
              match user_info.id with
              | none => (none, s, [])  -- KeyError on user_info['id']
              | some meta_user_id =>
                match get_pages env.pagesR long_lived_token with
                | .error _ => (none, s, [])
                | .ok pages =>
                  let call : UpsertCall :=
                    ⟨user_id, meta_user_id, long_lived_token, expires_in, some pages⟩
                  match tm.store_user_token env.storeEnv s user_id meta_user_id
                      long_lived_token expires_in (some pages) with
                  | (false, s') => (none, s', [call])
                  | (true, s') => (some ⟨user_info, pages⟩, s', [call])

/-- Number of rows of the table carrying a given `USER_ID`. -/
def countKey (s : Store) (uid : String) : Nat :=
  (s.filter (fun p => p.1 = uid)).length

/-! ### Concrete instances used by witnesses and counterexamples -/

def tmW : TokenManager := ⟨5⟩

def uidW : String := "u1"

def midW : String := "fb123"

def tokW : String := "tok-abc"

def codeW : String := "auth-code"

def pageW : Page := ⟨"p1", "Page One", "Media", none, none⟩

def senvW : StoreEnv := ⟨true, true, 100⟩

def fenvW : FetchEnv := ⟨true, true, 200⟩

/-- A healthy stored row for `uidW`. -/
def recW : TokenRecord :=
  ⟨midW, tmW.encrypt_token tokW, some 500, none, false, some 100⟩

/-- The same row with the reauth flag set. -/
def recReauthW : TokenRecord := { recW with needs_reauth := true }

/-- The same row with a `NULL` expiry column. -/
def recNoExpiryW : TokenRecord := { recW with token_expiry := none }

/-! ### Helper lemmas about the table -/

lemma mergeStore_upd_comp (uid : String) (upd : TokenRecord → TokenRecord) :
    ((fun p : String × TokenRecord => decide (p.1 = uid)) ∘
      (fun p : String × TokenRecord => if p.1 = uid then (p.1, upd p.2) else p)) =
      fun p : String × TokenRecord => decide (p.1 = uid) := by
  funext p
  by_cases h : p.1 = uid <;> simp [h]

lemma lookupUser_mergeStore (s : Store) (uid : String)
    (upd : TokenRecord → TokenRecord) (ins : TokenRecord) :
    lookupUser (mergeStore s uid upd ins) uid =
      some (match lookupUser s uid with
            | none => ins
            | some r => upd r) := by
  unfold mergeStore lookupUser
  by_cases hany : s.any (fun p => p.1 = uid) = true
  · simp only [hany, if_true]
    rw [List.find?_map, mergeStore_upd_comp]
    have hs : (s.find? (fun p => decide (p.1 = uid))).isSome := by
      rw [List.find?_isSome]
      obtain ⟨x, hx, hpx⟩ := List.any_eq_true.mp hany
      exact ⟨x, hx, hpx⟩
    obtain ⟨pr, hpr⟩ := Option.isSome_iff_exists.mp hs
    have hkey : pr.1 = uid := by simpa using List.find?_some hpr
    rw [hpr]
    simp [hkey]
  · have hfind : s.find? (fun p => decide (p.1 = uid)) = none := by
      rw [List.find?_eq_none]
      intro x hx hpx
      exact hany (List.any_eq_true.mpr ⟨x, hx, hpx⟩)
    simp only [hany, if_false, Bool.false_eq_true]
    rw [List.find?_append, hfind]
    simp [List.find?]

lemma lookupUser_any (s : Store) (uid : String) (r : TokenRecord)
    (h : lookupUser s uid = some r) : s.any (fun p => p.1 = uid) = true := by
  unfold lookupUser at h
  cases hf : s.find? (fun p => decide (p.1 = uid)) with
  | none => rw [hf] at h; simp at h
  | some pr =>
      have hp := List.find?_some hf
      exact List.any_eq_true.mpr ⟨pr, List.mem_of_find?_eq_some hf, hp⟩

lemma countKey_mergeStore (s : Store) (uid : String)
    (upd : TokenRecord → TokenRecord) (ins : TokenRecord) :
    countKey (mergeStore s uid upd ins) uid =
      if countKey s uid = 0 then 1 else countKey s uid := by
  unfold mergeStore countKey
  by_cases hany : s.any (fun p => p.1 = uid) = true
  · simp only [hany, if_true]
    rw [List.filter_map, mergeStore_upd_comp, List.length_map]
    obtain ⟨x, hx, hpx⟩ := List.any_eq_true.mp hany
    have hne : (s.filter (fun p => decide (p.1 = uid))).length ≠ 0 := by
      intro h0
      have := List.filter_eq_nil_iff.mp (List.length_eq_zero.mp h0)
      exact this x hx hpx
    simp [hne]
  · have hnil : s.filter (fun p => decide (p.1 = uid)) = [] := by
      rw [List.filter_eq_nil_iff]
      intro x hx hpx
      exact hany (List.any_eq_true.mpr ⟨x, hx, hpx⟩)
    simp only [hany, if_false, Bool.false_eq_true]
    rw [List.filter_append, hnil]
    simp [List.filter]

/-! ### Claim theorems -/

/-- C1: for every string `x`, decrypting the result of encrypting `x`
with the same vault returns `x` exactly, and decrypting a tampered or
corrupt ciphertext (one whose authentication tag does not match its
payload under the vault key) fails with a decryption error rather than
silently returning garbage. -/
theorem C1_vault_roundtrip_and_tamper_detect (tm : TokenManager) (x : String) :
    tm.decrypt_token (tm.encrypt_token x) = some x
    ∧ ∀ c : Ciphertext, macOf tm.key c.payload ≠ c.mac → tm.decrypt_token c = none := by
  constructor
  · simp [TokenManager.encrypt_token, TokenManager.decrypt_token]
  · intro c h
    simp [TokenManager.decrypt_token, h]

/-- Witness for C1 at the concrete vault `tmW` and token `tokW`, with the
tampered ciphertext obtained by zeroing the tag. -/
theorem C1_witness :
    tmW.decrypt_token (tmW.encrypt_token tokW) = some tokW
    ∧ tmW.decrypt_token ⟨tokW, 0⟩ = none :=
  ⟨(C1_vault_roundtrip_and_tamper_detect tmW tokW).1,
    (C1_vault_roundtrip_and_tamper_detect tmW tokW).2 ⟨tokW, 0⟩ (by decide)⟩

/-- C2: if the resource-enumeration stage (`get_pages`) raises, then
`complete_oauth_flow` persists nothing for that user — the table is left
in its prior state and `store_user_token` is never invoked; moreover in
every flow `store_user_token` is invoked at most once. -/
theorem C2_flow_atomicity (tm : TokenManager) (env : FlowEnv) (s : Store)
    (uid code : String)
    (h : ∀ t, get_pages env.pagesR t = Except.error ()) :
    ((complete_oauth_flow tm env s uid code).2.1 = s
      ∧ (complete_oauth_flow tm env s uid code).2.2 = [])
    ∧ ∀ (env2 : FlowEnv) (s2 : Store) (uid2 code2 : String),
        ((complete_oauth_flow tm env2 s2 uid2 code2).2.2).length ≤ 1 := by
  constructor
  · unfold complete_oauth_flow
    repeat' split
    all_goals first
      | exact ⟨rfl, rfl⟩
      | simp_all
  · intro env2 s2 uid2 code2
    unfold complete_oauth_flow
    repeat' split
    all_goals simp

/-- Witness for C2: a concrete flow whose resource-enumeration request
dies on a network error leaves the empty table empty. -/
theorem C2_witness :
    (complete_oauth_flow tmW
        ⟨.resp 200 (some ⟨some tokW, some 100⟩), .resp 200 (some ⟨some tokW, some 100⟩),
          .resp 200 (some ⟨some midW, none, none⟩), .netErr, senvW⟩
        [] uidW codeW).2.1 = []
    ∧ (complete_oauth_flow tmW
        ⟨.resp 200 (some ⟨some tokW, some 100⟩), .resp 200 (some ⟨some tokW, some 100⟩),
          .resp 200 (some ⟨some midW, none, none⟩), .netErr, senvW⟩
        [] uidW codeW).2.2 = [] :=
  (C2_flow_atomicity tmW
    ⟨.resp 200 (some ⟨some tokW, some 100⟩), .resp 200 (some ⟨some tokW, some 100⟩),
      .resp 200 (some ⟨some midW, none, none⟩), .netErr, senvW⟩
    [] uidW codeW (fun _ => rfl)).1

/-- C3: `store_user_token` computes the stored expiry as the write-time
clock plus the caller-supplied lifetime in seconds, and for every record
written with a zero or negative lifetime, the very next fetch at any
strictly later time reports the needs-reauth marker instead of a usable
token. -/
theorem C3_expiry_computation_and_zero_lifetime (tm : TokenManager)
    (senv : StoreEnv) (fenv : FetchEnv) (s : Store) (uid mid tok : String)
    (life : Int) (pages : Option (List Page))
    (hc : senv.connectOk = true) (he : senv.executeOk = true)
    (hf : fenv.connectOk = true) (hlater : senv.now < fenv.now) :
    ((lookupUser (tm.store_user_token senv s uid mid tok life pages).2 uid).map
        TokenRecord.token_expiry) = some (some (senv.now + life))
    ∧ (life ≤ 0 →
        (tm.get_user_token fenv (tm.store_user_token senv s uid mid tok life pages).2
            uid).1 = FetchResult.needsReauth) := by
  have hstore : (tm.store_user_token senv s uid mid tok life pages).2 =
      mergeStore s uid
        (fun _ =>
          { meta_user_id := mid, access_token := tm.encrypt_token tok,
            token_expiry := some (senv.now + life), pages := encryptPagesOpt tm pages,
            needs_reauth := false, last_refreshed := some senv.now })
        { meta_user_id := mid, access_token := tm.encrypt_token tok,
          token_expiry := some (senv.now + life), pages := encryptPagesOpt tm pages,
          needs_reauth := false, last_refreshed := none } := by
    simp [TokenManager.store_user_token, hc, he]
  have hrec : ∃ r, lookupUser (tm.store_user_token senv s uid mid tok life pages).2 uid
      = some r ∧ r.token_expiry = some (senv.now + life) ∧ r.needs_reauth = false := by
    rw [hstore, lookupUser_mergeStore]
    cases lookupUser s uid with
    | none => exact ⟨_, rfl, rfl, rfl⟩
    | some r0 => exact ⟨_, rfl, rfl, rfl⟩
  obtain ⟨r, hl, hexp, hnr⟩ := hrec
  constructor
  · rw [hl]
    simp only [Option.map_some']
    rw [hexp]
  · intro hlife
    have hlt : isExpired r.token_expiry fenv.now = true := by
      rw [hexp]
      simp only [isExpired, decide_eq_true_eq]
      omega
    simp [TokenManager.get_user_token, hf, hl, hnr, hlt]

/-- Witness for C3: a record written at time 100 with lifetime 0 carries
expiry 100 and is reported as needing reauth by a fetch at time 200. -/
theorem C3_witness :
    ((lookupUser (tmW.store_user_token senvW [] uidW midW tokW 0 none).2 uidW).map
        TokenRecord.token_expiry) = some (some 100)
    ∧ (tmW.get_user_token fenvW (tmW.store_user_token senvW [] uidW midW tokW 0 none).2
        uidW).1 = FetchResult.needsReauth := by
  have h := C3_expiry_computation_and_zero_lifetime tmW senvW fenvW [] uidW midW tokW
    0 none (by decide) (by decide) (by decide) (by decide)
  exact ⟨by simpa using h.1, h.2 (by decide)⟩

/-- C4: once a stored record has its reauth flag set, every fetch for
that user returns the needs-reauth marker without performing a single
decryption, whatever the wall clock says, and a subsequent successful
upsert leaves a record whose flag is cleared again. -/
theorem C4_reauth_stickiness (tm : TokenManager) (fenv : FetchEnv) (s : Store)
    (uid : String) (r : TokenRecord) (hl : lookupUser s uid = some r)
    (hr : r.needs_reauth = true) (hc : fenv.connectOk = true) :
    tm.get_user_token fenv s uid = (FetchResult.needsReauth, s, 0)
    ∧ ∀ (senv : StoreEnv) (mid tok : String) (life : Int)
        (pages : Option (List Page)), senv.connectOk = true → senv.executeOk = true →
        ((lookupUser (tm.store_user_token senv s uid mid tok life pages).2 uid).map
            TokenRecord.needs_reauth) = some false := by
  constructor
  · simp [TokenManager.get_user_token, hc, hl, hr]
  · intro senv mid tok life pages hsc hse
    have hstore : (tm.store_user_token senv s uid mid tok life pages).2 =
        mergeStore s uid
          (fun _ =>
            { meta_user_id := mid, access_token := tm.encrypt_token tok,
              token_expiry := some (senv.now + life), pages := encryptPagesOpt tm pages,
              needs_reauth := false, last_refreshed := some senv.now })
          { meta_user_id := mid, access_token := tm.encrypt_token tok,
            token_expiry := some (senv.now + life), pages := encryptPagesOpt tm pages,
            needs_reauth := false, last_refreshed := none } := by
      simp [TokenManager.store_user_token, hsc, hse]
    rw [hstore, lookupUser_mergeStore]
    cases lookupUser s uid with
    | none => rfl
    | some r0 => rfl

/-- Witness for C4: the flagged row `recReauthW` yields the marker with
zero decryptions, and re-upserting clears the flag. -/
theorem C4_witness :
    tmW.get_user_token fenvW [(uidW, recReauthW)] uidW =
      (FetchResult.needsReauth, [(uidW, recReauthW)], 0)
    ∧ ((lookupUser (tmW.store_user_token senvW [(uidW, recReauthW)] uidW midW tokW
          3600 none).2 uidW).map TokenRecord.needs_reauth) = some false := by
  have h := C4_reauth_stickiness tmW fenvW [(uidW, recReauthW)] uidW recReauthW
    (by decide) (by decide) (by decide)
  exact ⟨h.1, h.2 senvW midW tokW 3600 none (by decide) (by decide)⟩

/-- C5 counterexample: the `MERGE` insert branch does not name
`LAST_REFRESHED`, so the very first upsert for a user leaves the refresh
timestamp `NULL` rather than the write-time clock — "updated on every
upsert" fails on the insert path.  Concretely, upserting `uidW` at time
100 into the empty table stores `last_refreshed = none`, not
`some 100`. -/
theorem C5_counterexample :
    ((lookupUser (tmW.store_user_token senvW [] uidW midW tokW 3600 none).2 uidW).map
        TokenRecord.last_refreshed) = some none
    ∧ (some (none : Option Int)) ≠ some (some senvW.now) := by
  constructor
  · rfl
  · simp

/-- C5 (amended): upsert is keyed on `userId` — two `store_user_token`
calls for the same user leave exactly one record for that key, the second
call's token, expiry, resources and provider id winning entirely with the
reauth flag cleared, and the refresh timestamp is updated on every upsert
that overwrites an existing record; the insert branch of the `MERGE`
leaves it at the column default instead. -/
theorem C5_keyed_upsert_second_call_wins (tm : TokenManager)
    (senv1 senv2 : StoreEnv) (s : Store) (uid mid1 mid2 tok1 tok2 : String)
    (life1 life2 : Int) (pages1 pages2 : Option (List Page))
    (h1c : senv1.connectOk = true) (h1e : senv1.executeOk = true)
    (h2c : senv2.connectOk = true) (h2e : senv2.executeOk = true)
    (hwf : countKey s uid ≤ 1) :
    countKey (tm.store_user_token senv2
        (tm.store_user_token senv1 s uid mid1 tok1 life1 pages1).2
        uid mid2 tok2 life2 pages2).2 uid = 1
    ∧ lookupUser (tm.store_user_token senv2
        (tm.store_user_token senv1 s uid mid1 tok1 life1 pages1).2
        uid mid2 tok2 life2 pages2).2 uid = some
        { meta_user_id := mid2, access_token := tm.encrypt_token tok2,
          token_expiry := some (senv2.now + life2),
          pages := encryptPagesOpt tm pages2,
          needs_reauth := false, last_refreshed := some senv2.now } := by
  have hstore1 : (tm.store_user_token senv1 s uid mid1 tok1 life1 pages1).2 =
      mergeStore s uid
        (fun _ =>
          { meta_user_id := mid1, access_token := tm.encrypt_token tok1,
            token_expiry := some (senv1.now + life1), pages := encryptPagesOpt tm pages1,
            needs_reauth := false, last_refreshed := some senv1.now })
        { meta_user_id := mid1, access_token := tm.encrypt_token tok1,
          token_expiry := some (senv1.now + life1), pages := encryptPagesOpt tm pages1,
          needs_reauth := false, last_refreshed := none } := by
    simp [TokenManager.store_user_token, h1c, h1e]
  have hstore2 : ∀ (s' : Store),
      (tm.store_user_token senv2 s' uid mid2 tok2 life2 pages2).2 =
      mergeStore s' uid
        (fun _ =>
          { meta_user_id := mid2, access_token := tm.encrypt_token tok2,
            token_expiry := some (senv2.now + life2), pages := encryptPagesOpt tm pages2,
            needs_reauth := false, last_refreshed := some senv2.now })
        { meta_user_id := mid2, access_token := tm.encrypt_token tok2,
          token_expiry := some (senv2.now + life2), pages := encryptPagesOpt tm pages2,
          needs_reauth := false, last_refreshed := none } := by
    intro s'
    simp [TokenManager.store_user_token, h2c, h2e]
  rw [hstore1, hstore2]
  have hcount1 : countKey (mergeStore s uid
      (fun _ =>
        { meta_user_id := mid1, access_token := tm.encrypt_token tok1,
          token_expiry := some (senv1.now + life1), pages := encryptPagesOpt tm pages1,
          needs_reauth := false, last_refreshed := some senv1.now })
      { meta_user_id := mid1, access_token := tm.encrypt_token tok1,
        token_expiry := some (senv1.now + life1), pages := encryptPagesOpt tm pages1,
        needs_reauth := false, last_refreshed := none }) uid = 1 := by
    rw [countKey_mergeStore]
    have : countKey s uid = 0 ∨ countKey s uid = 1 := by omega
    rcases this with h | h <;> simp [h]
  constructor
  · rw [countKey_mergeStore, hcount1]
    simp
  · rw [lookupUser_mergeStore]
    have hsome : ∃ r1, lookupUser (mergeStore s uid
        (fun _ =>
          { meta_user_id := mid1, access_token := tm.encrypt_token tok1,
            token_expiry := some (senv1.now + life1), pages := encryptPagesOpt tm pages1,
            needs_reauth := false, last_refreshed := some senv1.now })
        { meta_user_id := mid1, access_token := tm.encrypt_token tok1,
          token_expiry := some (senv1.now + life1), pages := encryptPagesOpt tm pages1,
          needs_reauth := false, last_refreshed := none }) uid = some r1 := by
      rw [lookupUser_mergeStore]
      exact ⟨_, rfl⟩
    obtain ⟨r1, hr1⟩ := hsome
    rw [hr1]

/-- Witness for C5 (amended): two concrete upserts for `uidW` into the
empty table leave one row holding the second call's data. -/
theorem C5_witness :
    countKey (tmW.store_user_token ⟨true, true, 150⟩
        (tmW.store_user_token senvW [] uidW midW tokW 3600 none).2
        uidW midW "tok-new" 60 (some [pageW])).2 uidW = 1
    ∧ lookupUser (tmW.store_user_token ⟨true, true, 150⟩
        (tmW.store_user_token senvW [] uidW midW tokW 3600 none).2
        uidW midW "tok-new" 60 (some [pageW])).2 uidW = some
        { meta_user_id := midW, access_token := tmW.encrypt_token "tok-new",
          token_expiry := some 210,
          pages := encryptPagesOpt tmW (some [pageW]),
          needs_reauth := false, last_refreshed := some 150 } := by
  have h := C5_keyed_upsert_second_call_wins tmW senvW ⟨true, true, 150⟩ [] uidW
    midW midW tokW "tok-new" 3600 60 none (some [pageW])
    (by decide) (by decide) (by decide) (by decide) (by decide)
  exact ⟨h.1, by rw [h.2]; decide⟩

/-- C6: `store_user_token` is total (never raises): it returns `true`
exactly when both the connection and the statement execution succeed, any
failure leaves the table in its prior state with return value `false`,
and a `true` return means the record is durably present under the key. -/
theorem C6_store_returns_false_on_failure (tm : TokenManager) (senv : StoreEnv)
    (s : Store) (uid mid tok : String) (life : Int) (pages : Option (List Page)) :
    ((tm.store_user_token senv s uid mid tok life pages).1 =
        (senv.connectOk && senv.executeOk))
    ∧ ((tm.store_user_token senv s uid mid tok life pages).1 = false →
        (tm.store_user_token senv s uid mid tok life pages).2 = s)
    ∧ ((tm.store_user_token senv s uid mid tok life pages).1 = true →
        ((lookupUser (tm.store_user_token senv s uid mid tok life pages).2 uid).map
            TokenRecord.access_token) = some (tm.encrypt_token tok)) := by
  cases hco : senv.connectOk with
  | false => simp [TokenManager.store_user_token, hco]
  | true =>
    cases hex : senv.executeOk with
    | false => simp [TokenManager.store_user_token, hco, hex]
    | true =>
      refine ⟨by simp [TokenManager.store_user_token, hco, hex], ?_, ?_⟩
      · intro hfalse
        simp [TokenManager.store_user_token, hco, hex] at hfalse
      · intro _
        have hstore : (tm.store_user_token senv s uid mid tok life pages).2 =
            mergeStore s uid
              (fun _ =>
                { meta_user_id := mid, access_token := tm.encrypt_token tok,
                  token_expiry := some (senv.now + life),
                  pages := encryptPagesOpt tm pages,
                  needs_reauth := false, last_refreshed := some senv.now })
              { meta_user_id := mid, access_token := tm.encrypt_token tok,
                token_expiry := some (senv.now + life),
                pages := encryptPagesOpt tm pages,
                needs_reauth := false, last_refreshed := none } := by
          simp [TokenManager.store_user_token, hco, hex]
        rw [hstore, lookupUser_mergeStore]
        cases lookupUser s uid with
        | none => rfl
        | some r0 => rfl

/-- Witness for C6: with a failing connection nothing is stored and
`false` is returned; with everything healthy the call returns `true`. -/
theorem C6_witness :
    (tmW.store_user_token ⟨false, true, 100⟩ [] uidW midW tokW 60 none).1 = false
    ∧ (tmW.store_user_token ⟨false, true, 100⟩ [] uidW midW tokW 60 none).2 = []
    ∧ (tmW.store_user_token senvW [] uidW midW tokW 60 none).1 = true := by
  have h1 := C6_store_returns_false_on_failure tmW ⟨false, true, 100⟩ [] uidW midW
    tokW 60 none
  have h2 := C6_store_returns_false_on_failure tmW senvW [] uidW midW tokW 60 none
  refine ⟨by simpa using h1.1, h1.2.1 (by simpa using h1.1), by simpa using h2.1⟩

/-- Helper: `store_user_token` returning `false` leaves the table in its
prior state. -/
lemma store_user_token_eq_false (tm : TokenManager) (senv : StoreEnv)
    (s s' : Store) (uid mid tok : String) (life : Int)
    (pages : Option (List Page))
    (h : tm.store_user_token senv s uid mid tok life pages = (false, s')) :
    s' = s := by
  unfold TokenManager.store_user_token at h
  by_cases hco : senv.connectOk = true
  · by_cases hex : senv.executeOk = true
    · simp [hco, hex] at h
    · simp [hco, hex] at h
      exact h.symm
  · simp [hco] at h
    exact h.symm

/-- Helper: the boolean `store_user_token` returns is exactly "both the
connection and the execution succeeded". -/
lemma store_user_token_fst (tm : TokenManager) (senv : StoreEnv) (s : Store)
    (uid mid tok : String) (life : Int) (pages : Option (List Page)) :
    (tm.store_user_token senv s uid mid tok life pages).1 =
      (senv.connectOk && senv.executeOk) := by
  by_cases hco : senv.connectOk = true <;> by_cases hex : senv.executeOk = true <;>
    simp [TokenManager.store_user_token, hco, hex]

/-- Helper: the remote calls of the flow are determined by the
environment, not by the string argument handed to them. -/
lemma get_long_lived_token_arg (r : Remote TokenJson) (t t' : String) :
    get_long_lived_token r t = get_long_lived_token r t' := by
  cases r <;> rfl

lemma get_user_info_arg (r : Remote UserInfo) (t t' : String) :
    get_user_info r t = get_user_info r t' := by
  cases r <;> rfl

lemma get_pages_arg (r : Remote PagesJson) (t t' : String) :
    get_pages r t = get_pages r t' := by
  cases r <;> rfl

/-- C7 counterexample: `complete_oauth_flow` does not surface a typed
error identifying stage and cause — a network failure at the code-exchange
stage and one at the identity stage produce the identical untyped `None`;
and a non-2xx response at the resource-enumeration stage does not abort
the flow at all: it degrades to an empty resource list and the flow
completes successfully. -/
theorem C7_counterexample :
    complete_oauth_flow tmW
        ⟨.netErr, .resp 200 (some ⟨some tokW, some 100⟩),
          .resp 200 (some ⟨some midW, none, none⟩),
          .resp 200 (some ⟨some [pageW]⟩), senvW⟩ [] uidW codeW = (none, [], [])
    ∧ complete_oauth_flow tmW
        ⟨.resp 200 (some ⟨some tokW, some 100⟩), .resp 200 (some ⟨some tokW, some 100⟩),
          .netErr, .resp 200 (some ⟨some [pageW]⟩), senvW⟩ [] uidW codeW = (none, [], [])
    ∧ (complete_oauth_flow tmW
        ⟨.resp 200 (some ⟨some tokW, some 100⟩), .resp 200 (some ⟨some tokW, some 100⟩),
          .resp 200 (some ⟨some midW, none, none⟩),
          .resp 404 none, senvW⟩ [] uidW codeW).1 =
        some ⟨⟨some midW, none, none⟩, []⟩ := by
  refine ⟨rfl, rfl, ?_⟩
  decide

/-- C7 (amended): `complete_oauth_flow` returns the identity and resource
list on success; any exception during stages 1–4 (network error, non-2xx
on a `raise_for_status`-checked call, malformed JSON, missing expected
field such as `access_token`) aborts the flow at that stage — the error
is displayed, but the return value is an untyped `None` that does not
identify the stage or cause, and the table is left in its prior state
with no upsert performed.  A non-2xx response during resource enumeration
does not abort: `get_pages` degrades it to the empty list. -/
theorem C7_flow_error_behavior (tm : TokenManager) (env : FlowEnv) (s : Store)
    (uid code : String) :
    ((complete_oauth_flow tm env s uid code).1 = none →
        (complete_oauth_flow tm env s uid code).2.1 = s)
    ∧ (exchange_code_for_token env.exchangeR code = Except.error () →
        complete_oauth_flow tm env s uid code = (none, s, []))
    ∧ ((∀ t, get_long_lived_token env.longLivedR t = Except.error ()) →
        complete_oauth_flow tm env s uid code = (none, s, []))
    ∧ ((∀ t, get_user_info env.userInfoR t = Except.error ()) →
        complete_oauth_flow tm env s uid code = (none, s, []))
    ∧ (∀ td, exchange_code_for_token env.exchangeR code = Except.ok td →
        td.access_token = none →
        complete_oauth_flow tm env s uid code = (none, s, []))
    ∧ (∀ td lld ui mid llt ei ps,
        exchange_code_for_token env.exchangeR code = Except.ok td →
        td.access_token.isSome →
        (∀ t, get_long_lived_token env.longLivedR t = Except.ok lld) →
        lld.access_token = some llt → lld.expires_in = some ei →
        (∀ t, get_user_info env.userInfoR t = Except.ok ui) →
        ui.id = some mid →
        (∀ t, get_pages env.pagesR t = Except.ok ps) →
        env.storeEnv.connectOk = true → env.storeEnv.executeOk = true →
        complete_oauth_flow tm env s uid code =
          (some ⟨ui, ps⟩,
            (tm.store_user_token env.storeEnv s uid mid llt ei (some ps)).2,
            [⟨uid, mid, llt, ei, some ps⟩])) := by
  refine ⟨?_, ?_, ?_, ?_, ?_, ?_⟩
  · unfold complete_oauth_flow
    repeat' split
    all_goals try dsimp only
    all_goals intro hnone
    all_goals first
      | rfl
      | (rename_i s2 heq;
         exact store_user_token_eq_false _ _ _ _ _ _ _ _ _ heq)
      | simp at hnone
  · intro h
    unfold complete_oauth_flow
    rw [h]
  · intro h
    unfold complete_oauth_flow
    repeat' split
    all_goals first
      | rfl
      | simp_all
  · intro h
    unfold complete_oauth_flow
    repeat' split
    all_goals first
      | rfl
      | simp_all
  · intro td hx hat
    simp only [complete_oauth_flow, hx, hat]
  · intro td lld ui mid llt ei ps hx hat hll hlat hlei hui hid hpg hsc hse
    obtain ⟨at0, hat0⟩ := Option.isSome_iff_exists.mp hat
    cases hst : tm.store_user_token env.storeEnv s uid mid llt ei (some ps) with
    | mk b s2 =>
      have h1 : b = true := by
        have hb := store_user_token_fst tm env.storeEnv s uid mid llt ei (some ps)
        rw [hst, hsc, hse] at hb
        simpa using hb
      subst h1
      simp only [complete_oauth_flow, hx, hat0, hll at0, hlat, hlei, hui llt, hid,
        hpg llt, hst]

/-- Witness for C7 (amended): a concrete failing exchange yields the bare
`None` with nothing stored, and a concrete all-healthy flow returns the
identity and the (empty-able) resource list. -/
theorem C7_witness :
    complete_oauth_flow tmW
        ⟨.netErr, .resp 200 (some ⟨some tokW, some 100⟩),
          .resp 200 (some ⟨some midW, none, none⟩),
          .resp 200 (some ⟨some [pageW]⟩), senvW⟩ [] uidW codeW = (none, [], [])
    ∧ complete_oauth_flow tmW
        ⟨.resp 200 (some ⟨some tokW, some 100⟩), .resp 200 (some ⟨some tokW, some 100⟩),
          .resp 200 (some ⟨some midW, none, none⟩),
          .resp 200 (some ⟨some [pageW]⟩), senvW⟩ [] uidW codeW =
        (some ⟨⟨some midW, none, none⟩, [pageW]⟩,
          (tmW.store_user_token senvW [] uidW midW tokW 100 (some [pageW])).2,
          [⟨uidW, midW, tokW, 100, some [pageW]⟩]) := by
  constructor
  · exact (C7_flow_error_behavior tmW
      ⟨.netErr, .resp 200 (some ⟨some tokW, some 100⟩),
        .resp 200 (some ⟨some midW, none, none⟩),
        .resp 200 (some ⟨some [pageW]⟩), senvW⟩ [] uidW codeW).2.1 rfl
  · exact (C7_flow_error_behavior tmW
      ⟨.resp 200 (some ⟨some tokW, some 100⟩), .resp 200 (some ⟨some tokW, some 100⟩),
        .resp 200 (some ⟨some midW, none, none⟩),
        .resp 200 (some ⟨some [pageW]⟩), senvW⟩ [] uidW codeW).2.2.2.2.2
      ⟨some tokW, some 100⟩ ⟨some tokW, some 100⟩ ⟨some midW, none, none⟩
      midW tokW 100 [pageW] rfl (by decide) (fun _ => rfl) rfl rfl (fun _ => rfl)
      rfl (fun _ => rfl) (by decide) (by decide)

/-- C8: a fetch for a user with no stored record returns `None`
(not-found), and every vault or store failure during a fetch — failed
connection, failed token decryption, failed page decryption — degrades to
`None` instead of raising to the caller. -/
theorem C8_fetch_unknown_and_graceful_degradation (tm : TokenManager)
    (fenv : FetchEnv) (s : Store) (uid : String) :
    (fenv.connectOk = false → (tm.get_user_token fenv s uid).1 = FetchResult.notFound)
    ∧ (lookupUser s uid = none →
        (tm.get_user_token fenv s uid).1 = FetchResult.notFound)
    ∧ (∀ r, lookupUser s uid = some r → r.needs_reauth = false →
        isExpired r.token_expiry fenv.now = false →
        tm.decrypt_token r.access_token = none →
        (tm.get_user_token fenv s uid).1 = FetchResult.notFound)
    ∧ (∀ r tok, lookupUser s uid = some r → r.needs_reauth = false →
        isExpired r.token_expiry fenv.now = false →
        tm.decrypt_token r.access_token = some tok →
        (fetchPages tm r.pages).1 = none →
        (tm.get_user_token fenv s uid).1 = FetchResult.notFound) := by
  refine ⟨?_, ?_, ?_, ?_⟩
  · intro hc
    simp [TokenManager.get_user_token, hc]
  · intro hl
    cases hc : fenv.connectOk with
    | false => simp [TokenManager.get_user_token, hc]
    | true => simp [TokenManager.get_user_token, hc, hl]
  · intro r hl hr hexp hdec
    cases hc : fenv.connectOk with
    | false => simp [TokenManager.get_user_token, hc]
    | true => simp [TokenManager.get_user_token, hc, hl, hr, hexp, hdec]
  · intro r tok hl hr hexp hdec hpg
    cases hc : fenv.connectOk with
    | false => simp [TokenManager.get_user_token, hc]
    | true =>
      cases hfp : fetchPages tm r.pages with
      | mk o n =>
        rw [hfp] at hpg
        simp at hpg
        subst hpg
        simp [TokenManager.get_user_token, hc, hl, hr, hexp, hdec, hfp]

/-- Witness for C8: fetching an unknown user from the empty table returns
not-found, and a row whose ciphertext was tampered with (zeroed tag)
degrades to not-found as well. -/
theorem C8_witness :
    (tmW.get_user_token fenvW [] uidW).1 = FetchResult.notFound
    ∧ (tmW.get_user_token fenvW
        [(uidW, { recNoExpiryW with access_token := ⟨tokW, 0⟩ })] uidW).1 =
        FetchResult.notFound := by
  have h1 := (C8_fetch_unknown_and_graceful_degradation tmW fenvW [] uidW).2.1 rfl
  have h2 := (C8_fetch_unknown_and_graceful_degradation tmW fenvW
    [(uidW, { recNoExpiryW with access_token := ⟨tokW, 0⟩ })] uidW).2.2.1
    { recNoExpiryW with access_token := ⟨tokW, 0⟩ } (by decide) (by decide)
    (by decide) (by decide)
  exact ⟨h1, h2⟩

/-- C9: `_mark_token_for_reauth` is idempotent — applying it twice for
the same user equals applying it once — it only ever touches the
`needs_reauth` flag (every row keeps its key and every other field), a
failure inside it leaves the table unchanged without raising, and a mark
failure during the lazy-expiry path of `get_user_token` is not propagated:
the read still returns the marker, with the table unchanged. -/
theorem C9_mark_reauth_idempotent_frame (s : Store) (uid : String) :
    TokenManager.mark_token_for_reauth true
        (TokenManager.mark_token_for_reauth true s uid) uid =
      TokenManager.mark_token_for_reauth true s uid
    ∧ List.Forall₂ (fun p q : String × TokenRecord =>
        p.1 = q.1 ∧ p.2.meta_user_id = q.2.meta_user_id
        ∧ p.2.access_token = q.2.access_token
        ∧ p.2.token_expiry = q.2.token_expiry
        ∧ p.2.pages = q.2.pages
        ∧ p.2.last_refreshed = q.2.last_refreshed)
        s (TokenManager.mark_token_for_reauth true s uid)
    ∧ TokenManager.mark_token_for_reauth false s uid = s
    ∧ (∀ (tm : TokenManager) (fenv : FetchEnv) (r : TokenRecord),
        fenv.connectOk = true → fenv.markConnectOk = false →
        lookupUser s uid = some r → r.needs_reauth = false →
        isExpired r.token_expiry fenv.now = true →
        tm.get_user_token fenv s uid = (FetchResult.needsReauth, s, 0)) := by
  refine ⟨?_, ?_, ?_, ?_⟩
  · simp only [TokenManager.mark_token_for_reauth, if_true, List.map_map]
    congr 1
    funext p
    by_cases h : p.1 = uid
    · simp [Function.comp, h]
    · simp [Function.comp, h]
  · induction s with
    | nil => simp [TokenManager.mark_token_for_reauth]
    | cons q t ih =>
        simp only [TokenManager.mark_token_for_reauth, if_true, List.map_cons]
        refine List.Forall₂.cons ?_ ?_
        · by_cases h : q.1 = uid <;> simp [h]
        · simpa [TokenManager.mark_token_for_reauth] using ih
  · simp [TokenManager.mark_token_for_reauth]
  · intro tm fenv r hc hmc hl hr hexp
    simp [TokenManager.get_user_token, hc, hl, hr, hexp,
      TokenManager.mark_token_for_reauth, hmc]

/-- Witness for C9: marking `uidW` twice in a one-row table equals
marking once, and a fetch of an expired row whose marking connection
fails still returns the marker with the table unchanged. -/
theorem C9_witness :
    TokenManager.mark_token_for_reauth true
        (TokenManager.mark_token_for_reauth true [(uidW, recW)] uidW) uidW =
      TokenManager.mark_token_for_reauth true [(uidW, recW)] uidW
    ∧ tmW.get_user_token ⟨true, false, 600⟩ [(uidW, recW)] uidW =
        (FetchResult.needsReauth, [(uidW, recW)], 0) := by
  have h := C9_mark_reauth_idempotent_frame [(uidW, recW)] uidW
  exact ⟨h.1, h.2.2.2 tmW ⟨true, false, 600⟩ recW (by decide) (by decide)
    (by decide) (by decide) (by decide)⟩

/-- C10 (implicit): for a stored record whose reauth flag is unset and
whose `TOKEN_EXPIRY` column is `NULL`, `get_user_token` skips the expiry
check entirely — it never answers with the needs-reauth marker and never
mutates the table — and, when decryption succeeds, returns the fully
decrypted record as valid. -/
theorem C10_null_expiry_skips_check (tm : TokenManager) (fenv : FetchEnv)
    (s : Store) (uid : String) (r : TokenRecord) (hc : fenv.connectOk = true)
    (hl : lookupUser s uid = some r) (hr : r.needs_reauth = false)
    (he : r.token_expiry = none) :
    ((tm.get_user_token fenv s uid).1 ≠ FetchResult.needsReauth)
    ∧ ((tm.get_user_token fenv s uid).2.1 = s)
    ∧ (∀ tok pout n, tm.decrypt_token r.access_token = some tok →
        fetchPages tm r.pages = (some pout, n) →
        (tm.get_user_token fenv s uid).1 =
          FetchResult.token uid r.meta_user_id tok none pout) := by
  have hexp : isExpired r.token_expiry fenv.now = false := by
    rw [he]
    rfl
  refine ⟨?_, ?_, ?_⟩
  · cases hd : tm.decrypt_token r.access_token with
    | none => simp [TokenManager.get_user_token, hc, hl, hr, hexp, hd]
    | some tok =>
        cases hfp : fetchPages tm r.pages with
        | mk o n =>
          cases o with
          | none => simp [TokenManager.get_user_token, hc, hl, hr, hexp, hd, hfp]
          | some pout => simp [TokenManager.get_user_token, hc, hl, hr, hexp, hd, hfp]
  · cases hd : tm.decrypt_token r.access_token with
    | none => simp [TokenManager.get_user_token, hc, hl, hr, hexp, hd]
    | some tok =>
        cases hfp : fetchPages tm r.pages with
        | mk o n =>
          cases o with
          | none => simp [TokenManager.get_user_token, hc, hl, hr, hexp, hd, hfp]
          | some pout => simp [TokenManager.get_user_token, hc, hl, hr, hexp, hd, hfp]
  · intro tok pout n hd hfp
    simp [TokenManager.get_user_token, isExpired, hc, hl, hr, hd, hfp, he]

/-- Witness for C10: a row with `NULL` expiry fetched at a late wall
clock (time 600, far beyond any plausible expiry) is returned as a fully
valid record, not as the marker. -/
theorem C10_witness :
    ((tmW.get_user_token ⟨true, true, 600⟩ [(uidW, recNoExpiryW)] uidW).1 ≠
        FetchResult.needsReauth)
    ∧ (tmW.get_user_token ⟨true, true, 600⟩ [(uidW, recNoExpiryW)] uidW).1 =
        FetchResult.token uidW midW tokW none none := by
  have h := C10_null_expiry_skips_check tmW ⟨true, true, 600⟩
    [(uidW, recNoExpiryW)] uidW recNoExpiryW (by decide) (by decide) (by decide)
    (by decide)
  refine ⟨h.1, ?_⟩
  have h3 := h.2.2 tokW none 0 (by decide) (by decide)
  simpa using h3
